import Mathlib

/-!
Shallow embedding of the retail analytics dashboard
(`src/analysisfootfall.py`) — the filter engine, metrics calculator,
insight generator and top-products builder — together with proofs of the
specification's claims about them.

Modelling conventions:
* A pandas DataFrame is a `Table`: a list of `Row`s plus one Boolean per
  optional column recording whether that column is present
  (`'X' in df.columns`).
* A cell of an optional column is an `Option` value; `none` models a
  missing value (`NaN` / `NaT`).  Numeric cells are integers (`ℤ`), an
  idealisation of pandas floats (e.g. exact amounts in cents); none of
  the claims depends on fractional cell values or floating-point
  rounding, and the one genuinely fractional derived quantity, the
  average order value, is modelled as a rational.
* A parsed order date is a `Date`: an absolute month index plus a day
  within the month, ordered lexicographically.  `resample('M')` buckets
  by the month index.
* Python number formatting (`f"{x:,.2f}"`) is abstracted by `fmtMoney`;
  no claim depends on the digit grouping of the rendered number.
* `pandas.unique` preserves first-occurrence order while `List.dedup`
  keeps last occurrences; the places that use it (`multiselect` options,
  default selections) only ever use the result as a set, so no claim
  depends on that order.
-/

namespace Retail

/-- A parsed order date: absolute month index (year × 12 + month) and a
day of the month, compared lexicographically. -/
structure Date where
  month : Nat
  day : Nat
deriving DecidableEq, Repr

/-- Lexicographic `≤` on dates, mirroring calendar-date comparison. -/
def Date.leb (a b : Date) : Bool :=
  a.month < b.month || (a.month == b.month && a.day ≤ b.day)

/-- One row of the uploaded table.  Every field is optional: `none` is a
missing value (`NaN`/`NaT`) in that cell. -/
structure Row where
  orderDate : Option Date := none
  sales : Option Int := none
  profit : Option Int := none
  category : Option String := none
  region : Option String := none
  product : Option String := none
  orderID : Option String := none
deriving DecidableEq, Repr

/-- The loaded table after ingestion: per-column presence flags
(`'X' in df.columns`) and the rows.  A cell of an absent column is never
read by the code below. -/
structure Table where
  hasOrderDate : Bool := false
  hasSales : Bool := false
  hasProfit : Bool := false
  hasCategory : Bool := false
  hasRegion : Bool := false
  hasProduct : Bool := false
  hasOrderID : Bool := false
  rows : List Row := []
deriving DecidableEq, Repr

/-- Value a pandas sum contributes for one cell: missing values are
skipped, i.e. contribute `0`. -/
def salesVal (r : Row) : Int := r.sales.getD 0

/-- Sum of the Sales column over a view (`df['Sales'].sum()`:
`NaN` entries are skipped). -/
def sumSales (rows : List Row) : Int := (rows.map salesVal).sum

/-- `df['X'].isin(sel)` for one cell: a missing value is in no
selection list. -/
def isinOpt (sel : List String) (v : Option String) : Bool :=
  match v with
  | some s => sel.contains s
  | none => false

/-- Gate of the date-filter stage:
`'OrderDate' in df.columns and df['OrderDate'].notna().any()`. -/
def dateActive (t : Table) : Bool :=
  t.hasOrderDate && t.rows.any (fun r => r.orderDate.isSome)

/-- The Boolean date mask of line 64:
`(df['OrderDate'].dt.date >= start) & (df['OrderDate'].dt.date <= end)`.
A `NaT` date compares `False` on both sides. -/
def dateMask (s e : Date) (r : Row) : Bool :=
  match r.orderDate with
  | some d => Date.leb s d && Date.leb d e
  | none => false

/-- The user's sidebar selections.  `dateRange = none` models a
`date_input` value that is not a two-endpoint range (`len(date_range)
≠ 2`), which the code warns about and skips. -/
structure Selections where
  dateRange : Option (Date × Date) := none
  categories : List String := []
  regions : List String := []

/-- Date-filter stage (lines 53–67): active only when the column exists
and at least one date parsed; a malformed range leaves the view
unchanged. -/
def applyDateFilter (t : Table) (sel : Option (Date × Date))
    (rows : List Row) : List Row :=
  if dateActive t then
    match sel with
    | some (s, e) => rows.filter (dateMask s e)
    | none => rows
  else rows

/-- Category-filter stage (lines 70–79): an empty selection warns and
shows all; otherwise keep the rows whose category is in the
selection. -/
def applyCategoryFilter (t : Table) (sel : List String)
    (rows : List Row) : List Row :=
  if t.hasCategory then
    if sel.isEmpty then rows
    else rows.filter (fun r => isinOpt sel r.category)
  else rows

/-- Region-filter stage (lines 82–91), identical in shape to the
category stage. -/
def applyRegionFilter (t : Table) (sel : List String)
    (rows : List Row) : List Row :=
  if t.hasRegion then
    if sel.isEmpty then rows
    else rows.filter (fun r => isinOpt sel r.region)
  else rows

/-- The filtered view `df_filtered` (lines 50–91): date, then category,
then region stage applied to a copy of the loaded rows. -/
def dfFiltered (t : Table) (sel : Selections) : List Row :=
  applyRegionFilter t sel.regions
    (applyCategoryFilter t sel.categories
      (applyDateFilter t sel.dateRange t.rows))

/-- Row predicate of the date stage viewed as a single mask: `true`
whenever the stage is inactive or skipped. -/
def datePred (t : Table) (sel : Option (Date × Date)) (r : Row) : Bool :=
  if dateActive t then
    match sel with
    | some (s, e) => dateMask s e r
    | none => true
  else true

/-- Row predicate of the category stage viewed as a single mask. -/
def catPred (t : Table) (sel : List String) (r : Row) : Bool :=
  if t.hasCategory && !sel.isEmpty then isinOpt sel r.category else true

/-- Row predicate of the region stage viewed as a single mask. -/
def regPred (t : Table) (sel : List String) (r : Row) : Bool :=
  if t.hasRegion && !sel.isEmpty then isinOpt sel r.region else true

/-- Distinct non-missing values offered by the category multiselect and
used as its default: `df_filtered['Category'].dropna().unique()`
(used only as a set; see the header note on `dedup`). -/
def categoryOptions (rows : List Row) : List String :=
  (rows.filterMap (fun r => r.category)).dedup

/-- Distinct non-missing values offered by the region multiselect:
`df_filtered['Region'].dropna().unique()`. -/
def regionOptions (rows : List Row) : List String :=
  (rows.filterMap (fun r => r.region)).dedup

/-- All successfully parsed dates of the table, in row order
(`df['OrderDate']` with `NaT` dropped). -/
def parsedDates (rows : List Row) : List Date :=
  rows.filterMap (fun r => r.orderDate)

/-- `min` of two dates under the lexicographic order. -/
def Date.minD (a b : Date) : Date := if Date.leb a b then a else b

/-- `max` of two dates under the lexicographic order. -/
def Date.maxD (a b : Date) : Date := if Date.leb a b then b else a

/-- Default date selection (lines 54–61): the full
`[min(OrderDate), max(OrderDate)]` range over the parsed dates, or
`none` when no date parsed (the stage is then inactive anyway). -/
def defaultDateRange (rows : List Row) : Option (Date × Date) :=
  match parsedDates rows with
  | [] => none
  | d :: ds => some (ds.foldl Date.minD d, ds.foldl Date.maxD d)

/-- Total sales KPI (line 95):
`df_filtered['Sales'].sum() if 'Sales' in df_filtered.columns else 0`. -/
def total_sales (t : Table) (rows : List Row) : Int :=
  if t.hasSales then sumSales rows else 0

/-- Total orders KPI (line 96): `df_filtered['OrderID'].nunique()` when
the column exists (`nunique` ignores missing values), else the row count
of the filtered view. -/
def total_orders (t : Table) (rows : List Row) : Nat :=
  if t.hasOrderID then ((rows.filterMap (fun r => r.orderID)).dedup).length
  else rows.length

/-- Average order value KPI (line 97):
`total_sales / total_orders if total_orders > 0 else 0`. -/
def avg_order_value (t : Table) (rows : List Row) : ℚ :=
  if total_orders t rows > 0
  then (total_sales t rows : ℚ) / (total_orders t rows : ℚ)
  else 0

/-- Total profit KPI (line 98). -/
def total_profit (t : Table) (rows : List Row) : Int :=
  if t.hasProfit then (rows.map (fun r => r.profit.getD 0)).sum else 0

/-- Abstraction of the Python money formatting `f"{x:,.2f}"`; no claim
depends on the rendered digits. -/
def fmtMoney (q : Int) : String := toString q

/-- Lexicographic comparison of character lists by code point,
mirroring Python/pandas string ordering. -/
def charListLeb : List Char → List Char → Bool
  | [], _ => true
  | _ :: _, [] => false
  | a :: as, b :: bs =>
    if a = b then charListLeb as bs else decide (a.val < b.val)

/-- Lexicographic `≤` on strings (the order pandas sorts group keys
by). -/
def strLeb (a b : String) : Bool := charListLeb a.data b.data

/-- `strLeb` as a relation, for `insertionSort`. -/
def strLe (a b : String) : Prop := strLeb a b = true

instance : DecidableRel strLe := fun a b =>
  inferInstanceAs (Decidable (strLeb a b = true))

/-- `df.groupby(key)['Sales'].sum()`: group keys are the distinct
non-missing key values sorted ascending (pandas `groupby` sorts its
keys); the value of a group is the sum of the group's sales. -/
def groupSum (key : Row → Option String) (rows : List Row) :
    List (String × Int) :=
  (List.insertionSort strLe ((rows.filterMap key).dedup)).map
    (fun k => (k, sumSales (rows.filter (fun r => key r == some k))))

/-- `series.idxmax()` on a nonempty grouped series `p :: ps`: the key of
the first entry holding the maximum value. -/
def idxmaxFrom (p : String × Int) (ps : List (String × Int)) : String :=
  (ps.foldl (fun best q => if best.2 < q.2 then q else best) p).1

/-- `series.max()` on a nonempty grouped series `p :: ps`. -/
def maxFrom (p : String × Int) (ps : List (String × Int)) : Int :=
  ps.foldl (fun m q => max m q.2) p.2

/-- Top-region insight (lines 110–114): requires the Region and Sales
columns and at least one group. -/
def regionInsight (t : Table) (rows : List Row) : Option String :=
  if t.hasRegion && t.hasSales then
    match groupSum (fun r => r.region) rows with
    | [] => none
    | p :: ps =>
      some ("🏆 Top region: **" ++ idxmaxFrom p ps ++ "** with $"
        ++ fmtMoney (maxFrom p ps) ++ " sales")
  else none

/-- Top-category insight (lines 116–120): same gating, label only. -/
def catInsight (t : Table) (rows : List Row) : Option String :=
  if t.hasCategory && t.hasSales then
    match groupSum (fun r => r.category) rows with
    | [] => none
    | p :: ps => some ("🔥 Top category: **" ++ idxmaxFrom p ps ++ "**")
  else none

/-- Month indices of the rows with a parsed date. -/
def datedMonths (rows : List Row) : List Nat :=
  rows.filterMap (fun r => r.orderDate.map Date.month)

/-- `dropna(subset=['OrderDate']).set_index('OrderDate').resample('M')
['Sales'].sum()` (line 123): one bucket per calendar month from the
earliest to the latest dated row, months without rows summing to 0. -/
def monthlySums (rows : List Row) : List Int :=
  match datedMonths rows with
  | [] => []
  | m :: ms =>
    let lo := ms.foldl Nat.min m
    let hi := ms.foldl Nat.max m
    (List.range (hi + 1 - lo)).map (fun i =>
      sumSales (rows.filter
        (fun r => r.orderDate.map Date.month == some (lo + i))))

/-- Trend insight (lines 122–128): with at least two monthly buckets,
"increasing" when the last bucket strictly exceeds the second-to-last
(`iloc[-1] > iloc[-2]`), otherwise "declining". -/
def trendInsight (t : Table) (rows : List Row) : Option String :=
  if t.hasOrderDate && t.hasSales then
    let ms := monthlySums rows
    if 1 < ms.length then
      if ms.getD (ms.length - 2) 0 < ms.getD (ms.length - 1) 0 then
        some "📈 Sales are increasing recently"
      else some "📉 Sales are declining recently"
    else none
  else none

/-- The insight list (lines 108–128), appended in the fixed order
region, category, trend. -/
def insights (t : Table) (rows : List Row) : List String :=
  ((regionInsight t rows).toList ++ (catInsight t rows).toList)
    ++ (trendInsight t rows).toList

/-- What the insights section renders (lines 130–134): the numbered
insight lines, or the explicit notice when the list is empty. -/
def insightDisplay (t : Table) (rows : List Row) : List String :=
  let ins := insights t rows
  if ins.isEmpty then ["No insights generated based on current filters."]
  else ins.enum.map (fun p => toString (p.1 + 1) ++ ". " ++ p.2)

/-- `sort_values(ascending=False)` order on grouped entries: descending
by summed sales. -/
def byDescSales (a b : String × Int) : Prop := b.2 ≤ a.2

instance : DecidableRel byDescSales := fun a b =>
  inferInstanceAs (Decidable (b.2 ≤ a.2))

instance : IsTotal (String × Int) byDescSales :=
  ⟨fun a b => le_total b.2 a.2⟩

instance : IsTrans (String × Int) byDescSales :=
  ⟨fun _ _ _ hab hbc => le_trans hbc hab⟩

/-- Top-10 products (line 155): group by product, sum sales, sort by
value descending, take the first 10. -/
def top_products (rows : List Row) : List (String × Int) :=
  (List.insertionSort byDescSales
    (groupSum (fun r => r.product) rows)).take 10

/-- The two in-scope pandas objects of the filter section: the loaded
table `df` and the derived view `df_filtered`. -/
structure DashState where
  df : Table
  filtered : List Row

/-- Line 50: `df_filtered = df.copy()`. -/
def initState (t : Table) : DashState := ⟨t, t.rows⟩

/-- The date stage as a state transformer: rebinds `df_filtered`,
leaves `df` alone. -/
def dateStageS (sel : Option (Date × Date)) (s : DashState) : DashState :=
  { s with filtered := applyDateFilter s.df sel s.filtered }

/-- The category stage as a state transformer. -/
def categoryStageS (sel : List String) (s : DashState) : DashState :=
  { s with filtered := applyCategoryFilter s.df sel s.filtered }

/-- The region stage as a state transformer. -/
def regionStageS (sel : List String) (s : DashState) : DashState :=
  { s with filtered := applyRegionFilter s.df sel s.filtered }

/-- The whole filter section run statefully, as the script does. -/
def runFilters (t : Table) (sel : Selections) : DashState :=
  regionStageS sel.regions
    (categoryStageS sel.categories
      (dateStageS sel.dateRange (initState t)))

/-! ### Concrete sample data used by the witnesses -/

/-- Three sample rows: two fully populated, one with an unparseable
date and a missing category. -/
def rowsEx : List Row :=
  [{ orderDate := some ⟨0, 1⟩, sales := some 100, profit := some 10,
     category := some "Tech", region := some "West",
     product := some "Laptop", orderID := some "o1" },
   { orderDate := some ⟨1, 5⟩, sales := some 150, profit := some 20,
     category := some "Home", region := some "East",
     product := some "Desk", orderID := some "o2" },
   { orderDate := none, sales := some 7, profit := some 1,
     category := none, region := some "West",
     product := some "Lamp", orderID := some "o3" }]

/-- A sample table carrying every optional column. -/
def tEx : Table :=
  { hasOrderDate := true, hasSales := true, hasProfit := true,
    hasCategory := true, hasRegion := true, hasProduct := true,
    hasOrderID := true, rows := rowsEx }

/-- A sample set of sidebar selections for `tEx`. -/
def selEx : Selections :=
  { dateRange := some (⟨0, 1⟩, ⟨1, 5⟩),
    categories := ["Tech", "Home"], regions := ["West", "East"] }

/-! ### Each stage is the filter by its mask -/

theorem applyDateFilter_eq_filter (t : Table) (sel : Option (Date × Date))
    (rows : List Row) :
    applyDateFilter t sel rows = rows.filter (datePred t sel) := by
  unfold applyDateFilter datePred
  cases hA : dateActive t
  · simp
  · cases sel with
    | none => simp
    | some p =>
      obtain ⟨s, e⟩ := p
      simp

theorem applyCategoryFilter_eq_filter (t : Table) (sel : List String)
    (rows : List Row) :
    applyCategoryFilter t sel rows = rows.filter (catPred t sel) := by
  unfold applyCategoryFilter catPred
  cases hC : t.hasCategory
  · simp
  · cases hE : sel.isEmpty
    · simp [hE]
    · simp [hE]

theorem applyRegionFilter_eq_filter (t : Table) (sel : List String)
    (rows : List Row) :
    applyRegionFilter t sel rows = rows.filter (regPred t sel) := by
  unfold applyRegionFilter regPred
  cases hR : t.hasRegion
  · simp
  · cases hE : sel.isEmpty
    · simp [hE]
    · simp [hE]

/-- The three-stage pipeline is one filter by the conjunction of the
three masks (date, category, region). -/
theorem dfFiltered_eq_filter (t : Table) (sel : Selections) :
    dfFiltered t sel = t.rows.filter (fun r =>
      datePred t sel.dateRange r && catPred t sel.categories r
        && regPred t sel.regions r) := by
  unfold dfFiltered
  rw [applyDateFilter_eq_filter, applyCategoryFilter_eq_filter,
    applyRegionFilter_eq_filter, List.filter_filter, List.filter_filter]
  apply List.filter_congr
  intro r _
  cases datePred t sel.dateRange r <;> cases catPred t sel.categories r
    <;> cases regPred t sel.regions r <;> rfl

/-- C3: applying the three filter stages in sequence (date, then
category, then region) equals filtering the loaded rows once by any
predicate that is pointwise the conjunction of the three stage masks —
in particular by the conjunction taken in any order, since Boolean
conjunction is commutative and associative. -/
theorem filters_seq_eq_conj_any_order (t : Table) (sel : Selections)
    (p : Row → Bool)
    (hp : ∀ r, p r = (datePred t sel.dateRange r
      && catPred t sel.categories r && regPred t sel.regions r)) :
    t.rows.filter p = dfFiltered t sel := by
  rw [dfFiltered_eq_filter]
  exact List.filter_congr (fun r _ => hp r)

/-- Witness for C3 at the sample table, with the conjuncts taken in a
different order (region ∧ date ∧ category). -/
theorem filters_seq_eq_conj_any_order_witness :
    tEx.rows.filter (fun r => regPred tEx selEx.regions r
      && (datePred tEx selEx.dateRange r && catPred tEx selEx.categories r))
      = dfFiltered tEx selEx :=
  filters_seq_eq_conj_any_order tEx selEx _ (fun r => by
    cases datePred tEx selEx.dateRange r <;>
      cases catPred tEx selEx.categories r <;>
        cases regPred tEx selEx.regions r <;> rfl)

/-- C1: when the Sales column is present, the total-sales metric is the
sum of the Sales column over exactly the rows of the loaded table that
pass all three filter masks; when it is absent the metric is 0. -/
theorem total_sales_spec (t : Table) (sel : Selections) :
    (t.hasSales = true →
      total_sales t (dfFiltered t sel)
        = sumSales (t.rows.filter (fun r =>
            datePred t sel.dateRange r && catPred t sel.categories r
              && regPred t sel.regions r)))
    ∧ (t.hasSales = false → total_sales t (dfFiltered t sel) = 0) := by
  constructor
  · intro h
    rw [total_sales, if_pos h, dfFiltered_eq_filter]
  · intro h
    simp [total_sales, h]

/-- Witness for C1 at the sample table. -/
theorem total_sales_spec_witness :
    total_sales tEx (dfFiltered tEx selEx)
      = sumSales (tEx.rows.filter (fun r =>
          datePred tEx selEx.dateRange r && catPred tEx selEx.categories r
            && regPred tEx selEx.regions r)) :=
  (total_sales_spec tEx selEx).1 rfl

/-- C5: the average-order-value metric is total sales over total orders
when the order count is positive, and 0 when the order count is 0, so
the division is guarded by a positive divisor. -/
theorem avg_order_value_spec (t : Table) (rows : List Row) :
    (0 < total_orders t rows →
      avg_order_value t rows
        = (total_sales t rows : ℚ) / (total_orders t rows : ℚ))
    ∧ (total_orders t rows = 0 → avg_order_value t rows = 0) := by
  constructor
  · intro h
    simp [avg_order_value, h]
  · intro h
    simp [avg_order_value, h]

/-- Witness for C5 at the sample table (three distinct order ids). -/
theorem avg_order_value_spec_witness :
    avg_order_value tEx tEx.rows
      = (total_sales tEx tEx.rows : ℚ) / (total_orders tEx tEx.rows : ℚ) :=
  (avg_order_value_spec tEx tEx.rows).1 (by decide)

/-- C8: running the filter section leaves the loaded table `df`
untouched; `df_filtered` is a derived view — it equals the pure
three-stage pipeline and is a sublist of the loaded rows. -/
theorem filters_preserve_original_table (t : Table) (sel : Selections) :
    (runFilters t sel).df = t
    ∧ (runFilters t sel).filtered = dfFiltered t sel
    ∧ (runFilters t sel).filtered.Sublist t.rows := by
  refine ⟨rfl, rfl, ?_⟩
  have h : (runFilters t sel).filtered = dfFiltered t sel := rfl
  rw [h, dfFiltered_eq_filter]
  exact List.filter_sublist t.rows

/-! ### Empty selection vs. all-distinct selection (C2, C10) -/

/-- An empty category selection is a full passthrough. -/
theorem applyCategoryFilter_nil (t : Table) (rows : List Row) :
    applyCategoryFilter t [] rows = rows := by
  unfold applyCategoryFilter
  cases t.hasCategory <;> simp

/-- An empty region selection is a full passthrough. -/
theorem applyRegionFilter_nil (t : Table) (rows : List Row) :
    applyRegionFilter t [] rows = rows := by
  unfold applyRegionFilter
  cases t.hasRegion <;> simp

/-- A table whose Category column has one present and one missing
value. -/
def tC2 : Table :=
  { hasCategory := true,
    rows := [{ category := some "A" }, { category := none }] }

/-- Counterexample to C2 as stated: on `tC2` the empty selection keeps
the missing-category row while selecting all distinct non-missing
values (`["A"]`) drops it, so the two views differ. -/
theorem categoryFilter_empty_ne_allDistinct :
    ¬ (applyCategoryFilter tC2 [] tC2.rows
        = applyCategoryFilter tC2 (categoryOptions tC2.rows) tC2.rows) := by
  decide

/-- C2 (amended): when the Category (resp. Region) column has no
missing values, the empty selection and the all-distinct-values
selection produce identical views. -/
theorem filter_empty_eq_allDistinct_of_no_missing (t : Table)
    (rows : List Row) :
    ((∀ r ∈ rows, (r.category).isSome = true) →
      applyCategoryFilter t [] rows
        = applyCategoryFilter t (categoryOptions rows) rows)
    ∧ ((∀ r ∈ rows, (r.region).isSome = true) →
      applyRegionFilter t [] rows
        = applyRegionFilter t (regionOptions rows) rows) := by
  constructor
  · intro h
    rw [applyCategoryFilter_nil]
    unfold applyCategoryFilter
    cases hC : t.hasCategory
    · simp
    · cases hE : (categoryOptions rows).isEmpty
      · simp only [hE, Bool.false_eq_true, if_false, if_true]
        symm
        rw [List.filter_eq_self]
        intro r hr
        obtain ⟨c, hc⟩ := Option.isSome_iff_exists.mp (h r hr)
        have hmem : c ∈ categoryOptions rows :=
          List.mem_dedup.mpr (List.mem_filterMap.mpr ⟨r, hr, hc⟩)
        simp [isinOpt, hc, hmem]
      · simp [hE]
  · intro h
    rw [applyRegionFilter_nil]
    unfold applyRegionFilter
    cases hR : t.hasRegion
    · simp
    · cases hE : (regionOptions rows).isEmpty
      · simp only [hE, Bool.false_eq_true, if_false, if_true]
        symm
        rw [List.filter_eq_self]
        intro r hr
        obtain ⟨c, hc⟩ := Option.isSome_iff_exists.mp (h r hr)
        have hmem : c ∈ regionOptions rows :=
          List.mem_dedup.mpr (List.mem_filterMap.mpr ⟨r, hr, hc⟩)
        simp [isinOpt, hc, hmem]
      · simp [hE]

/-- A no-missing-values table for the C2 witness. -/
def tC2W : Table :=
  { hasCategory := true, hasRegion := true,
    rows := [{ category := some "A", region := some "N" },
             { category := some "B", region := some "S" }] }

/-- Witness for the amended C2 at a table with no missing category or
region values. -/
theorem filter_empty_eq_allDistinct_witness :
    applyCategoryFilter tC2W [] tC2W.rows
      = applyCategoryFilter tC2W (categoryOptions tC2W.rows) tC2W.rows :=
  (filter_empty_eq_allDistinct_of_no_missing tC2W tC2W.rows).1 (by decide)

/-- A table whose only Category value is missing. -/
def tC10 : Table :=
  { hasCategory := true, rows := [{ category := none }] }

/-- Counterexample to C10 as stated: when every Category value is
missing, the all-distinct-non-missing selection is empty, the stage is
a passthrough, and the missing-category row is kept, not removed. -/
theorem allDistinct_keeps_missing_when_all_missing :
    ¬ (∀ r ∈ applyCategoryFilter tC10 (categoryOptions tC10.rows) tC10.rows,
        (r.category).isSome = true) := by
  decide

/-- C10 (amended): on a table whose Category (resp. Region) column has
at least one missing and at least one non-missing value, selecting all
distinct non-missing values removes every missing-value row, while the
empty selection keeps the view unchanged. -/
theorem filter_allDistinct_drops_missing (t : Table) (rows : List Row) :
    (t.hasCategory = true → (∃ r ∈ rows, r.category = none) →
      (∃ r ∈ rows, (r.category).isSome = true) →
      (∀ r ∈ applyCategoryFilter t (categoryOptions rows) rows,
        (r.category).isSome = true)
      ∧ applyCategoryFilter t [] rows = rows)
    ∧ (t.hasRegion = true → (∃ r ∈ rows, r.region = none) →
      (∃ r ∈ rows, (r.region).isSome = true) →
      (∀ r ∈ applyRegionFilter t (regionOptions rows) rows,
        (r.region).isSome = true)
      ∧ applyRegionFilter t [] rows = rows) := by
  constructor
  · intro hC h1 h2
    refine ⟨?_, applyCategoryFilter_nil t rows⟩
    intro r hr
    rw [applyCategoryFilter_eq_filter] at hr
    have hp := List.of_mem_filter hr
    have hE : (categoryOptions rows).isEmpty = false := by
      obtain ⟨r2, hr2, hs2⟩ := h2
      obtain ⟨c, hc⟩ := Option.isSome_iff_exists.mp hs2
      have hmem : c ∈ categoryOptions rows :=
        List.mem_dedup.mpr (List.mem_filterMap.mpr ⟨r2, hr2, hc⟩)
      simp [List.isEmpty_iff, List.ne_nil_of_mem hmem]
    rw [catPred, hC, hE] at hp
    cases hcat : r.category with
    | none =>
      rw [hcat] at hp
      simp [isinOpt] at hp
    | some c => simp [hcat]
  · intro hR h1 h2
    refine ⟨?_, applyRegionFilter_nil t rows⟩
    intro r hr
    rw [applyRegionFilter_eq_filter] at hr
    have hp := List.of_mem_filter hr
    have hE : (regionOptions rows).isEmpty = false := by
      obtain ⟨r2, hr2, hs2⟩ := h2
      obtain ⟨c, hc⟩ := Option.isSome_iff_exists.mp hs2
      have hmem : c ∈ regionOptions rows :=
        List.mem_dedup.mpr (List.mem_filterMap.mpr ⟨r2, hr2, hc⟩)
      simp [List.isEmpty_iff, List.ne_nil_of_mem hmem]
    rw [regPred, hR, hE] at hp
    cases hreg : r.region with
    | none =>
      rw [hreg] at hp
      simp [isinOpt] at hp
    | some c => simp [hreg]

/-- A table with one missing and one present Category value for the
C10 witness. -/
def tC10W : Table :=
  { hasCategory := true,
    rows := [{ category := some "A" }, { category := none }] }

/-- Witness for the amended C10. -/
theorem filter_allDistinct_drops_missing_witness :
    (∀ r ∈ applyCategoryFilter tC10W (categoryOptions tC10W.rows) tC10W.rows,
      (r.category).isSome = true)
    ∧ applyCategoryFilter tC10W [] tC10W.rows = tC10W.rows :=
  (filter_allDistinct_drops_missing tC10W tC10W.rows).1 rfl
    (by decide) (by decide)

/-! ### The default date range is not a passthrough (C9) -/

/-- C9: on a table whose OrderDate column has at least one parsed and
at least one unparsed value, the date stage with the default full
`[min, max]` range keeps only rows with a parsed date, and in
particular changes the view. -/
theorem default_date_range_drops_unparsed (t : Table)
    (hod : t.hasOrderDate = true)
    (h1 : ∃ r ∈ t.rows, (r.orderDate).isSome = true)
    (h2 : ∃ r ∈ t.rows, r.orderDate = none) :
    (∀ r ∈ applyDateFilter t (defaultDateRange t.rows) t.rows,
      (r.orderDate).isSome = true)
    ∧ applyDateFilter t (defaultDateRange t.rows) t.rows ≠ t.rows := by
  have hact : dateActive t = true := by
    unfold dateActive
    rw [hod]
    simpa [List.any_eq_true] using h1
  obtain ⟨d, ds, hpd⟩ : ∃ d ds, parsedDates t.rows = d :: ds := by
    obtain ⟨r1, hr1, hs1⟩ := h1
    obtain ⟨dd, hdd⟩ := Option.isSome_iff_exists.mp hs1
    have hmem : dd ∈ parsedDates t.rows :=
      List.mem_filterMap.mpr ⟨r1, hr1, hdd⟩
    cases hp : parsedDates t.rows with
    | nil => rw [hp] at hmem; cases hmem
    | cons d0 ds0 => exact ⟨d0, ds0, rfl⟩
  have hsel : defaultDateRange t.rows
      = some (ds.foldl Date.minD d, ds.foldl Date.maxD d) := by
    unfold defaultDateRange
    rw [hpd]
  have hall : ∀ r ∈ applyDateFilter t (defaultDateRange t.rows) t.rows,
      (r.orderDate).isSome = true := by
    intro r hr
    rw [applyDateFilter_eq_filter] at hr
    have hp := List.of_mem_filter hr
    rw [hsel] at hp
    simp only [datePred, hact, if_true] at hp
    cases hdate : r.orderDate with
    | none =>
      simp only [dateMask, hdate] at hp
      simp at hp
    | some dd => simp [hdate]
  refine ⟨hall, fun heq => ?_⟩
  obtain ⟨r0, hr0, hr0n⟩ := h2
  have := hall r0 (by rw [heq]; exact hr0)
  rw [hr0n] at this
  simp at this

/-- Witness for C9 at the sample table (two parsed dates, one `NaT`). -/
theorem default_date_range_drops_unparsed_witness :
    (∀ r ∈ applyDateFilter tEx (defaultDateRange tEx.rows) tEx.rows,
      (r.orderDate).isSome = true)
    ∧ applyDateFilter tEx (defaultDateRange tEx.rows) tEx.rows ≠ tEx.rows :=
  default_date_range_drops_unparsed tEx rfl (by decide) (by decide)

/-! ### Trend insight (C4) -/

/-- Two months with equal sales (100, 100): the boundary case. -/
def tTie : Table :=
  { hasOrderDate := true, hasSales := true,
    rows := [{ orderDate := some ⟨0, 1⟩, sales := some 100 },
             { orderDate := some ⟨1, 1⟩, sales := some 100 }] }

/-- Two months with growing sales (100, 150). -/
def tInc : Table :=
  { hasOrderDate := true, hasSales := true,
    rows := [{ orderDate := some ⟨0, 1⟩, sales := some 100 },
             { orderDate := some ⟨1, 1⟩, sales := some 150 }] }

/-- C4: with the OrderDate and Sales columns present and at least two
monthly buckets, the trend insight is "increasing" exactly when the
last bucket strictly exceeds the second-to-last and "declining"
otherwise; with fewer than two buckets no trend insight is emitted.
Monthly sums [100, 100] give "declining", [100, 150] give
"increasing". -/
theorem trend_insight_spec :
    (∀ (t : Table) (rows : List Row),
      t.hasOrderDate = true → t.hasSales = true →
      (1 < (monthlySums rows).length →
        (trendInsight t rows = some "📈 Sales are increasing recently"
          ↔ (monthlySums rows).getD ((monthlySums rows).length - 2) 0
              < (monthlySums rows).getD ((monthlySums rows).length - 1) 0)
        ∧ (trendInsight t rows = some "📉 Sales are declining recently"
          ↔ ¬ (monthlySums rows).getD ((monthlySums rows).length - 2) 0
              < (monthlySums rows).getD ((monthlySums rows).length - 1) 0))
      ∧ (¬ 1 < (monthlySums rows).length → trendInsight t rows = none))
    ∧ monthlySums tTie.rows = [100, 100]
    ∧ trendInsight tTie tTie.rows = some "📉 Sales are declining recently"
    ∧ monthlySums tInc.rows = [100, 150]
    ∧ trendInsight tInc tInc.rows = some "📈 Sales are increasing recently"
    := by
  refine ⟨?_, by decide, by decide, by decide, by decide⟩
  intro t rows hod hs
  constructor
  · intro hlen
    have ht : trendInsight t rows
        = if (monthlySums rows).getD ((monthlySums rows).length - 2) 0
            < (monthlySums rows).getD ((monthlySums rows).length - 1) 0
          then some "📈 Sales are increasing recently"
          else some "📉 Sales are declining recently" := by
      simp only [trendInsight, hod, hs, Bool.and_self, if_true]
      rw [if_pos hlen]
    by_cases hc : (monthlySums rows).getD ((monthlySums rows).length - 2) 0
        < (monthlySums rows).getD ((monthlySums rows).length - 1) 0
    · rw [if_pos hc] at ht
      exact ⟨⟨fun _ => hc, fun _ => ht⟩,
        ⟨fun h2 => absurd (ht.symm.trans h2) (by decide),
         fun h2 => absurd hc h2⟩⟩
    · rw [if_neg hc] at ht
      exact ⟨⟨fun h2 => absurd (ht.symm.trans h2) (by decide),
         fun h2 => absurd h2 hc⟩,
        ⟨fun _ => hc, fun _ => ht⟩⟩
  · intro hlen
    simp only [trendInsight, hod, hs, Bool.and_self, if_true]
    rw [if_neg hlen]

/-- Witness for C4: the growing sample has two buckets and is reported
increasing. -/
theorem trend_insight_spec_witness :
    trendInsight tInc tInc.rows = some "📈 Sales are increasing recently" :=
  ((trend_insight_spec.1 tInc tInc.rows rfl rfl).1 (by decide)).1.mpr
    (by decide)

/-! ### The insight list (C6) -/

/-- C6: the insight list has at most 3 entries, in the fixed order
region, category, trend; each entry appears only when its columns are
present and its grouped data is nonempty; an empty list renders as the
explicit no-insights notice, a nonempty one as the numbered lines. -/
theorem insights_spec (t : Table) (rows : List Row) :
    (insights t rows).length ≤ 3
    ∧ insights t rows = (regionInsight t rows).toList
        ++ (catInsight t rows).toList ++ (trendInsight t rows).toList
    ∧ ((regionInsight t rows).isSome = true →
        t.hasRegion = true ∧ t.hasSales = true
        ∧ groupSum (fun r => r.region) rows ≠ [])
    ∧ ((catInsight t rows).isSome = true →
        t.hasCategory = true ∧ t.hasSales = true
        ∧ groupSum (fun r => r.category) rows ≠ [])
    ∧ ((trendInsight t rows).isSome = true →
        t.hasOrderDate = true ∧ t.hasSales = true
        ∧ 1 < (monthlySums rows).length)
    ∧ (insights t rows = [] →
        insightDisplay t rows
          = ["No insights generated based on current filters."])
    ∧ (insights t rows ≠ [] →
        insightDisplay t rows
          = (insights t rows).enum.map
              (fun p => toString (p.1 + 1) ++ ". " ++ p.2)) := by
  refine ⟨?_, rfl, ?_, ?_, ?_, ?_, ?_⟩
  · unfold insights
    rcases regionInsight t rows with _ | r1 <;>
      rcases catInsight t rows with _ | r2 <;>
        rcases trendInsight t rows with _ | r3 <;> simp
  · intro h
    cases hR : t.hasRegion
    · simp [regionInsight, hR] at h
    · cases hS : t.hasSales
      · simp [regionInsight, hS] at h
      · refine ⟨rfl, rfl, ?_⟩
        cases hg : groupSum (fun r => r.region) rows with
        | nil => simp [regionInsight, hR, hS, hg] at h
        | cons p ps => simp [hg]
  · intro h
    cases hC : t.hasCategory
    · simp [catInsight, hC] at h
    · cases hS : t.hasSales
      · simp [catInsight, hS] at h
      · refine ⟨rfl, rfl, ?_⟩
        cases hg : groupSum (fun r => r.category) rows with
        | nil => simp [catInsight, hC, hS, hg] at h
        | cons p ps => simp [hg]
  · intro h
    cases hod : t.hasOrderDate
    · simp [trendInsight, hod] at h
    · cases hS : t.hasSales
      · simp [trendInsight, hS] at h
      · refine ⟨rfl, rfl, ?_⟩
        by_cases hlen : 1 < (monthlySums rows).length
        · exact hlen
        · simp [trendInsight, hod, hS, hlen] at h
  · intro h
    simp [insightDisplay, h]
  · intro h
    simp only [insightDisplay]
    rw [if_neg (by simpa [List.isEmpty_iff] using h)]

/-- Witness for C6 at the sample data: the region-insight condition is
discharged at a concrete view. -/
theorem insights_spec_witness :
    (insights tEx rowsEx).length ≤ 3
    ∧ (tEx.hasRegion = true ∧ tEx.hasSales = true
        ∧ groupSum (fun r => r.region) rowsEx ≠ []) :=
  ⟨(insights_spec tEx rowsEx).1,
   (insights_spec tEx rowsEx).2.2.1 (by decide)⟩

/-! ### Top-10 products (C7) -/

/-- Taking the first 10 of the descending sort of a series with
pairwise-distinct values yields 10 entries, strictly descending, drawn
from the series, and dominating every entry left out. -/
theorem sortedTake_spec (g : List (String × Int))
    (hnd : (g.map Prod.snd).Nodup)
    (hlen : 10 ≤ g.length) :
    ((List.insertionSort byDescSales g).take 10).length = 10
    ∧ List.Pairwise (fun a b : String × Int => b.2 < a.2)
        ((List.insertionSort byDescSales g).take 10)
    ∧ (∀ x ∈ (List.insertionSort byDescSales g).take 10, x ∈ g)
    ∧ (∀ x ∈ (List.insertionSort byDescSales g).take 10, ∀ y ∈ g,
        y ∉ (List.insertionSort byDescSales g).take 10 → y.2 < x.2) := by
  set L := List.insertionSort byDescSales g with hL
  have hperm : L.Perm g := List.perm_insertionSort byDescSales g
  have hsorted : List.Sorted byDescSales L :=
    List.sorted_insertionSort byDescSales g
  have hndg : List.Pairwise (fun a b : String × Int => a.2 ≠ b.2) g :=
    List.pairwise_map.mp hnd
  have hndL : List.Pairwise (fun a b : String × Int => a.2 ≠ b.2) L :=
    (hperm.pairwise_iff (fun {_ _} h => Ne.symm h)).mpr hndg
  have hstrict : List.Pairwise (fun a b : String × Int => b.2 < a.2) L :=
    (List.Pairwise.and hsorted hndL).imp
      (fun h => lt_of_le_of_ne h.1 (Ne.symm h.2))
  refine ⟨?_, ?_, ?_, ?_⟩
  · rw [List.length_take, hperm.length_eq]
    exact Nat.min_eq_left hlen
  · exact hstrict.sublist (List.take_sublist 10 L)
  · intro x hx
    exact hperm.mem_iff.mp ((List.take_sublist 10 L).subset hx)
  · intro x hx y hy hyn
    have h2 : List.Pairwise (fun a b : String × Int => b.2 < a.2)
        (L.take 10 ++ L.drop 10) := by
      rw [List.take_append_drop]
      exact hstrict
    have hyL : y ∈ L.take 10 ++ L.drop 10 := by
      rw [List.take_append_drop]
      exact hperm.mem_iff.mpr hy
    rcases List.mem_append.mp hyL with hcase | hcase
    · exact absurd hcase hyn
    · exact (List.pairwise_append.mp h2).2.2 x hx y hcase

/-- C7: on a view whose 15 distinct products have pairwise-distinct
summed sales, the top-products builder returns exactly 10 grouped
entries, strictly descending by total sales, each taken from the
grouped series, and every entry it leaves out has a strictly smaller
total than every entry it keeps. -/
theorem top_products_spec (rows : List Row)
    (hnd : ((groupSum (fun r => r.product) rows).map Prod.snd).Nodup)
    (hlen : (groupSum (fun r => r.product) rows).length = 15) :
    (top_products rows).length = 10
    ∧ List.Pairwise (fun a b : String × Int => b.2 < a.2)
        (top_products rows)
    ∧ (∀ x ∈ top_products rows, x ∈ groupSum (fun r => r.product) rows)
    ∧ (∀ x ∈ top_products rows,
        ∀ y ∈ groupSum (fun r => r.product) rows,
        y ∉ top_products rows → y.2 < x.2) :=
  sortedTake_spec (groupSum (fun r => r.product) rows) hnd
    (by rw [hlen]; decide)

/-- Fifteen one-row products with strictly decreasing sales. -/
def rowsTop : List Row :=
  [{ product := some "A", sales := some 150 },
   { product := some "B", sales := some 140 },
   { product := some "C", sales := some 130 },
   { product := some "D", sales := some 120 },
   { product := some "E", sales := some 110 },
   { product := some "F", sales := some 100 },
   { product := some "G", sales := some 90 },
   { product := some "H", sales := some 80 },
   { product := some "I", sales := some 70 },
   { product := some "J", sales := some 60 },
   { product := some "K", sales := some 50 },
   { product := some "L", sales := some 40 },
   { product := some "M", sales := some 30 },
   { product := some "N", sales := some 20 },
   { product := some "O", sales := some 10 }]

/-- Witness for C7 at the 15-product sample. -/
theorem top_products_spec_witness :
    (top_products rowsTop).length = 10 :=
  (top_products_spec rowsTop (by decide) (by decide)).1

end Retail
